import Mathlib

/-!
Verification of the kubensage/relay fan-out broadcaster and its two
streaming loops, shallowly embedded from `pkg/grpc/broadcaster.go` and
`pkg/grpc/server.go`.

Modelling decisions:
* `gen.Metrics` is an opaque payload carrying a host identifier and a pod
  count (the only parts the relay ever inspects, for logging).
* A Go buffered channel of capacity `c` is a `Mailbox`: a FIFO list of
  pending samples together with its fixed capacity.  A non-blocking
  `select`-send (`ch <- msg` with `default`) is `Mailbox.trySend`, which
  enqueues at the back when there is free buffer space and otherwise
  reports failure; a receive `<-ch` is `Mailbox.receive`, taking the front.
* The registry `map[string]chan *gen.Metrics` is an association list with
  unique keys; map assignment, `delete` and range-iteration are embedded
  directly.  Locking disappears in the sequential embedding: `Broadcast`,
  `Register` and `Unregister` are total functions on the registry state,
  so in particular `Broadcast` can never block its caller.
* The drop-warning log emitted by `Broadcast` for a full mailbox is
  reified as the list of subscriber ids for which the sample was dropped
  (the observability signal); `Broadcast` has no error outcome.
-/

namespace Relay

/-- Opaque metrics sample (`gen.Metrics`): a host identifier and the
per-pod measurements, of which the relay only ever looks at the
cardinality for logging. -/
structure Metrics where
  hostname : String
  podCount : Nat
deriving DecidableEq, Repr

/-- A Go buffered channel of samples: fixed capacity plus the FIFO buffer
of pending samples (front = next to be received). -/
structure Mailbox where
  capacity : Nat
  buffer : List Metrics
deriving DecidableEq, Repr

/-- `make(chan *gen.Metrics, cap)`: an empty mailbox of the given capacity. -/
def Mailbox.new (cap : Nat) : Mailbox := ⟨cap, []⟩

/-- Non-blocking send (`select { case ch <- msg: ... default: ... }`):
enqueue at the back when the buffer has free space, otherwise leave the
mailbox unchanged and report `false`. -/
def Mailbox.trySend (mb : Mailbox) (msg : Metrics) : Mailbox × Bool :=
  if mb.buffer.length < mb.capacity then
    (⟨mb.capacity, mb.buffer ++ [msg]⟩, true)
  else
    (mb, false)

/-- Channel receive (`<-ch`): take the sample at the front, if any. -/
def Mailbox.receive (mb : Mailbox) : Option (Metrics × Mailbox) :=
  match mb.buffer with
  | [] => none
  | m :: rest => some (m, ⟨mb.capacity, rest⟩)

/-- The broadcaster's registry: subscriber id ↦ mailbox
(`subscribers map[string]chan *gen.Metrics`), as an association list. -/
structure Broadcaster where
  subscribers : List (String × Mailbox)
deriving DecidableEq, Repr

/-- `NewBroadcaster`: empty registry. -/
def NewBroadcaster : Broadcaster := ⟨[]⟩

/-- The set (list) of registered subscriber ids. -/
def Broadcaster.tokens (b : Broadcaster) : List String :=
  b.subscribers.map Prod.fst

/-- `Register`: Go map assignment `b.subscribers[id] = ch` — replaces the
entry in place when the key is present, otherwise adds a new entry. -/
def Broadcaster.Register (b : Broadcaster) (id : String) (ch : Mailbox) : Broadcaster :=
  if b.tokens.contains id then
    ⟨b.subscribers.map (fun p => if p.1 = id then (id, ch) else p)⟩
  else
    ⟨b.subscribers ++ [(id, ch)]⟩

/-- `Unregister`: Go map `delete(b.subscribers, id)` — removes the entry
if present, no-op otherwise. -/
def Broadcaster.Unregister (b : Broadcaster) (id : String) : Broadcaster :=
  ⟨b.subscribers.filter (fun p => p.1 != id)⟩

/-- The body of `Broadcast`'s `for id, ch := range b.subscribers` loop:
for each subscriber do a non-blocking send; collect (in iteration order)
the ids whose mailbox was full, for which the drop warning is logged.
Returns the updated registry entries and the dropped-for ids. -/
def broadcastLoop (subs : List (String × Mailbox)) (msg : Metrics) :
    List (String × Mailbox) × List String :=
  match subs with
  | [] => ([], [])
  | (id, ch) :: rest =>
    let s := ch.trySend msg
    let r := broadcastLoop rest msg
    ((id, s.1) :: r.1, if s.2 then r.2 else id :: r.2)

/-- `Broadcast`: deliver `msg` to every registered subscriber by
non-blocking send, dropping it (with a logged warning, reified as the
second component) for each subscriber whose mailbox is full. -/
def Broadcaster.Broadcast (b : Broadcaster) (msg : Metrics) : Broadcaster × List String :=
  let r := broadcastLoop b.subscribers msg
  (⟨r.1⟩, r.2)

/-- Mailbox capacity used by `SubscribeMetrics`:
`ch := make(chan *gen.Metrics, 100)`. -/
def mailboxCapacity : Nat := 100

/-- A transport-level error (`error` values returned by gRPC stream
operations), identified by an opaque code. -/
structure TransportError where
  code : Nat
deriving DecidableEq, Repr

/-- How an inbound agent stream ends after its message frames: graceful
end-of-stream (`io.EOF`) or a transport-level read failure. -/
inductive StreamEnd where
  | eof : StreamEnd
  | failure : TransportError → StreamEnd
deriving DecidableEq, Repr

/-- Observable outcome of one `SendMetrics` call: the final registry
state, the returned error (`none` = returned nil), the number of
acknowledgments transmitted via `SendAndClose`, and the arguments passed
to `Broadcast`, in call order. -/
structure SendOutcome where
  broadcaster : Broadcaster
  result : Option TransportError
  acksSent : Nat
  broadcastCalls : List Metrics
deriving DecidableEq, Repr

/-- `SendMetrics`: read frames until EOF or error.  Each received sample
is broadcast immediately; on `io.EOF` return the result of
`stream.SendAndClose(&emptypb.Empty{})` (whose transport outcome is the
`ackSendErr` parameter); on a read failure return that error without
acknowledging.  The inbound stream is the list of successfully received
samples followed by its ending. -/
def sendMetrics (b : Broadcaster) (msgs : List Metrics) (ending : StreamEnd)
    (ackSendErr : Option TransportError) : SendOutcome :=
  match msgs with
  | [] =>
    match ending with
    | StreamEnd.eof => ⟨b, ackSendErr, 1, []⟩
    | StreamEnd.failure e => ⟨b, some e, 0, []⟩
  | m :: rest =>
    let out := sendMetrics (b.Broadcast m).1 rest ending ackSendErr
    { out with broadcastCalls := m :: out.broadcastCalls }

/-- One firing of the `select` in `SubscribeMetrics`'s loop: either the
mailbox yielded a sample (with the transport outcome of the ensuing
`stream.Send`, `none` = success), or the stream context was cancelled. -/
inductive SubEvent where
  | sample : Metrics → Option TransportError → SubEvent
  | cancel : SubEvent
deriving DecidableEq, Repr

/-- An event that keeps the loop running: a sample whose send succeeds. -/
def SubEvent.isOkSample : SubEvent → Bool
  | SubEvent.sample _ none => true
  | _ => false

/-- The samples carried by a trace of events. -/
def sampleMsgs : List SubEvent → List Metrics
  | [] => []
  | SubEvent.sample m _ :: rest => m :: sampleMsgs rest
  | SubEvent.cancel :: rest => sampleMsgs rest

/-- The `for { select { ... } }` loop of `SubscribeMetrics`, run over a
trace of select firings.  Returns `none` when the trace is exhausted
without an exit event (the loop is still blocked in `select`); otherwise
the returned error (`none` = returned nil) and the samples successfully
sent, in order.  A sample whose `stream.Send` fails makes the loop return
that error; a cancellation makes it return nil. -/
def streamingLoop (events : List SubEvent) :
    Option (Option TransportError × List Metrics) :=
  match events with
  | [] => none
  | SubEvent.cancel :: _ => some (none, [])
  | SubEvent.sample m none :: rest =>
    match streamingLoop rest with
    | none => none
    | some (res, sent) => some (res, m :: sent)
  | SubEvent.sample _ (some e) :: _ => some (some e, [])

/-- Observable outcome of one terminated `SubscribeMetrics` call: final
registry state, returned error (`none` = returned nil), samples sent, and
how many times `Unregister` was called on the way out. -/
structure SubOutcome where
  broadcaster : Broadcaster
  result : Option TransportError
  sent : List Metrics
  unregisterCalls : Nat
deriving DecidableEq, Repr

/-- `SubscribeMetrics`: register a fresh id with a capacity-100 mailbox,
run the streaming loop, and on every return path run the deferred
`Unregister(id)` exactly once.  `none` when the loop never exits. -/
def subscribeMetrics (b : Broadcaster) (id : String) (events : List SubEvent) :
    Option SubOutcome :=
  let b1 := b.Register id (Mailbox.new mailboxCapacity)
  match streamingLoop events with
  | none => none
  | some (some e, sent) => some ⟨b1.Unregister id, some e, sent, 1⟩
  | some (none, sent) => some ⟨b1.Unregister id, none, sent, 1⟩

/-! ## Helper lemmas about the broadcast loop -/

lemma broadcastLoop_map_fst (subs : List (String × Mailbox)) (msg : Metrics) :
    (broadcastLoop subs msg).1.map Prod.fst = subs.map Prod.fst := by
  induction subs with
  | nil => simp [broadcastLoop]
  | cons p rest ih =>
    obtain ⟨id, ch⟩ := p
    simp [broadcastLoop, ih]

lemma broadcastLoop_map_capacity (subs : List (String × Mailbox)) (msg : Metrics) :
    (broadcastLoop subs msg).1.map (fun p => p.2.capacity) =
      subs.map (fun p => p.2.capacity) := by
  induction subs with
  | nil => simp [broadcastLoop]
  | cons p rest ih =>
    obtain ⟨id, ch⟩ := p
    by_cases h : ch.buffer.length < ch.capacity <;>
      simp [broadcastLoop, Mailbox.trySend, h, ih]

lemma broadcastLoop_length (subs : List (String × Mailbox)) (msg : Metrics) :
    (broadcastLoop subs msg).1.length = subs.length := by
  have := congrArg List.length (broadcastLoop_map_fst subs msg)
  simpa using this

lemma broadcastLoop_dropped_subset (subs : List (String × Mailbox)) (msg : Metrics) :
    ∀ x ∈ (broadcastLoop subs msg).2, x ∈ subs.map Prod.fst := by
  induction subs with
  | nil => simp [broadcastLoop]
  | cons p rest ih =>
    obtain ⟨id, ch⟩ := p
    intro x hx
    rw [List.map_cons]
    by_cases h : ch.buffer.length < ch.capacity
    · have hx' : x ∈ (broadcastLoop rest msg).2 := by
        simpa [broadcastLoop, Mailbox.trySend, h] using hx
      exact List.mem_cons.mpr (Or.inr (ih x hx'))
    · have hx' : x = id ∨ x ∈ (broadcastLoop rest msg).2 := by
        simpa [broadcastLoop, Mailbox.trySend, h] using hx
      rcases hx' with rfl | hx'
      · exact List.mem_cons.mpr (Or.inl rfl)
      · exact List.mem_cons.mpr (Or.inr (ih x hx'))

/-- Pointwise behaviour of one broadcast pass, for a subscriber present in
a registry with unique ids: free capacity means the sample is appended to
that mailbox and no drop is signalled for that id; a full mailbox means
the mailbox is untouched and a drop is signalled for that id. -/
lemma broadcastLoop_mem_spec (msg : Metrics) :
    ∀ (subs : List (String × Mailbox)) (id : String) (mb : Mailbox),
      (subs.map Prod.fst).Nodup → (id, mb) ∈ subs →
      (mb.buffer.length < mb.capacity →
        (id, (⟨mb.capacity, mb.buffer ++ [msg]⟩ : Mailbox)) ∈ (broadcastLoop subs msg).1 ∧
        id ∉ (broadcastLoop subs msg).2) ∧
      (¬ mb.buffer.length < mb.capacity →
        (id, mb) ∈ (broadcastLoop subs msg).1 ∧
        id ∈ (broadcastLoop subs msg).2) := by
  intro subs
  induction subs with
  | nil => intro id mb _ hmem; simp at hmem
  | cons p rest ih =>
    intro id mb hnd hmem
    obtain ⟨id', ch⟩ := p
    rw [List.map_cons, List.nodup_cons] at hnd
    obtain ⟨hid', hndrest⟩ := hnd
    rcases List.mem_cons.mp hmem with hhead | htail
    · obtain ⟨h1, h2⟩ := Prod.mk.injEq .. ▸ hhead
      subst h1; subst h2
      constructor
      · intro hcap
        have hdrop : id ∉ (broadcastLoop rest msg).2 := fun hx =>
          hid' (broadcastLoop_dropped_subset rest msg id hx)
        simp [broadcastLoop, Mailbox.trySend, hcap, hdrop]
      · intro hcap
        simp [broadcastLoop, Mailbox.trySend, hcap]
    · have hne : id ≠ id' := by
        intro h; subst h
        exact hid' (List.mem_map.mpr ⟨(id, mb), htail, rfl⟩)
      have := ih id mb hndrest htail
      constructor
      · intro hcap
        obtain ⟨hm, hd⟩ := this.1 hcap
        by_cases h : ch.buffer.length < ch.capacity <;>
          simp [broadcastLoop, Mailbox.trySend, h, hm, hd, hne]
      · intro hcap
        obtain ⟨hm, hd⟩ := this.2 hcap
        by_cases h : ch.buffer.length < ch.capacity <;>
          simp [broadcastLoop, Mailbox.trySend, h, hm, hd]

lemma unregister_tokens_not_mem (b : Broadcaster) (id : String) :
    id ∉ (b.Unregister id).tokens := by
  intro h
  rcases List.mem_map.mp h with ⟨p, hp, hfst⟩
  have hne := (List.mem_filter.mp hp).2
  rw [hfst] at hne
  simp at hne

/-! ## Concrete fixtures used by witness theorems -/

/-- A concrete sample. -/
def wSample : Metrics := ⟨"host", 0⟩

/-- A concrete registry: subscriber `s` with room (capacity 2, empty
buffer) and subscriber `t` with a full mailbox (capacity 0). -/
def wReg : Broadcaster := ⟨[("s", ⟨2, []⟩), ("t", ⟨0, []⟩)]⟩

/-- Concrete registration batch. -/
def wEntries : List (String × Mailbox) := [("a", Mailbox.new 1), ("b", Mailbox.new 1)]

/-! ## Claim theorems -/

/-- Claim C1: for every registry state and every sample, `Broadcast`
never blocks the caller (it is a total function of the registry state
returning no error): each registered subscriber whose mailbox has free
capacity has the sample enqueued at the back of its mailbox and no drop
signalled for it, and each subscriber whose mailbox is full keeps its
mailbox unchanged with a drop signal recorded for that subscriber only;
since this holds pointwise for every subscriber of the same call,
delivery to every other subscriber is unaffected. -/
theorem broadcast_nonblocking_deliver_or_drop (b : Broadcaster) (msg : Metrics)
    (id : String) (mb : Mailbox)
    (hnd : b.tokens.Nodup) (hmem : (id, mb) ∈ b.subscribers) :
    (mb.buffer.length < mb.capacity →
      (id, (⟨mb.capacity, mb.buffer ++ [msg]⟩ : Mailbox)) ∈ (b.Broadcast msg).1.subscribers ∧
      id ∉ (b.Broadcast msg).2) ∧
    (¬ mb.buffer.length < mb.capacity →
      (id, mb) ∈ (b.Broadcast msg).1.subscribers ∧
      id ∈ (b.Broadcast msg).2) :=
  broadcastLoop_mem_spec msg b.subscribers id mb hnd hmem

/-- Witness for C1 at a concrete registry: `s` (room) receives the
sample, `t` (full) keeps its mailbox and gets the drop signal. -/
theorem broadcast_nonblocking_deliver_or_drop_witness :
    wReg.tokens.Nodup ∧ ("s", (⟨2, []⟩ : Mailbox)) ∈ wReg.subscribers ∧
    (("s", (⟨2, [wSample]⟩ : Mailbox)) ∈ (wReg.Broadcast wSample).1.subscribers ∧
      "s" ∉ (wReg.Broadcast wSample).2) ∧
    (("t", (⟨0, []⟩ : Mailbox)) ∈ (wReg.Broadcast wSample).1.subscribers ∧
      "t" ∈ (wReg.Broadcast wSample).2) :=
  ⟨by decide, by decide,
    (broadcast_nonblocking_deliver_or_drop wReg wSample "s" ⟨2, []⟩
      (by decide) (by decide)).1 (by decide),
    (broadcast_nonblocking_deliver_or_drop wReg wSample "t" ⟨0, []⟩
      (by decide) (by decide)).2 (by decide)⟩

/-- Claim C9: `Broadcast` performs no structural mutation of the
registry: the token list, each entry's mailbox capacity, and the number
of entries are identical before and after; only mailbox contents may
change, so in particular a full-mailbox drop removes no subscriber. -/
theorem broadcast_frame_registry (b : Broadcaster) (msg : Metrics) :
    (b.Broadcast msg).1.tokens = b.tokens ∧
    (b.Broadcast msg).1.subscribers.map (fun p => p.2.capacity) =
      b.subscribers.map (fun p => p.2.capacity) ∧
    (b.Broadcast msg).1.subscribers.length = b.subscribers.length :=
  ⟨broadcastLoop_map_fst b.subscribers msg,
   broadcastLoop_map_capacity b.subscribers msg,
   broadcastLoop_length b.subscribers msg⟩

/-- Claim C5: with a freshly registered capacity-2 mailbox that is never
drained, broadcasting m1, m2, m3 in order leaves the mailbox holding
exactly [m1, m2] in order (drop-newest-on-full); the first two calls
record no drop and the third records exactly one drop signal, for that
subscriber. -/
theorem drop_newest_on_full_capacity_two (id : String) (m1 m2 m3 : Metrics) :
    ((((NewBroadcaster.Register id (Mailbox.new 2)).Broadcast m1).1.Broadcast
        m2).1.Broadcast m3).1.subscribers = [(id, ⟨2, [m1, m2]⟩)] ∧
    ((NewBroadcaster.Register id (Mailbox.new 2)).Broadcast m1).2 = [] ∧
    (((NewBroadcaster.Register id (Mailbox.new 2)).Broadcast m1).1.Broadcast m2).2 = [] ∧
    ((((NewBroadcaster.Register id (Mailbox.new 2)).Broadcast m1).1.Broadcast
        m2).1.Broadcast m3).2 = [id] :=
  ⟨rfl, rfl, rfl, rfl⟩

/-- Claim C6: `Unregister` is idempotent — removing the same token twice
leaves the registry exactly as removing it once, and removing an absent
token is a no-op (with no error outcome: `Unregister` is total). -/
theorem unregister_idempotent (b : Broadcaster) (id : String) :
    (b.Unregister id).Unregister id = b.Unregister id ∧
    (id ∉ b.tokens → b.Unregister id = b) := by
  constructor
  · show Broadcaster.mk _ = Broadcaster.mk _
    simp [Broadcaster.Unregister, List.filter_filter]
  · intro h
    have hall : ∀ p ∈ b.subscribers, (p.1 != id) = true := by
      intro p hp
      simp only [bne_iff_ne, ne_eq]
      intro hpe
      exact h (hpe ▸ List.mem_map.mpr ⟨p, hp, rfl⟩)
    exact congrArg Broadcaster.mk (List.filter_eq_self.mpr hall)

/-- Witness for C6 at a concrete registry and the absent token `u`. -/
theorem unregister_idempotent_witness :
    "u" ∉ wReg.tokens ∧
    (wReg.Unregister "u").Unregister "u" = wReg.Unregister "u" ∧
    wReg.Unregister "u" = wReg :=
  ⟨by decide, (unregister_idempotent wReg "u").1,
    (unregister_idempotent wReg "u").2 (by decide)⟩

/-- Claim C2: the mailbox created at subscribe time is a bounded FIFO
queue of the fixed default capacity 100 (`SubscribeMetrics` registers
`Mailbox.new mailboxCapacity`); `trySend` never grows a buffer past its
capacity; and per-subscriber FIFO holds: if m1 is broadcast before m2 and
both are delivered to subscriber `id` (its mailbox has room at both
calls), the mailbox afterwards holds `... ++ [m1, m2]`, and `receive`
takes the front, so `id` observes m1 strictly before m2. -/
theorem mailbox_capacity_and_fifo (b : Broadcaster) (id : String) (mb : Mailbox)
    (m1 m2 : Metrics)
    (hnd : b.tokens.Nodup) (hmem : (id, mb) ∈ b.subscribers)
    (hroom : mb.buffer.length + 1 < mb.capacity) :
    mailboxCapacity = 100 ∧
    (Mailbox.new mailboxCapacity).capacity = 100 ∧
    (Mailbox.new mailboxCapacity).buffer = [] ∧
    (∀ (mb' : Mailbox) (m : Metrics), mb'.buffer.length ≤ mb'.capacity →
      (mb'.trySend m).1.buffer.length ≤ mb'.capacity) ∧
    (id, (⟨mb.capacity, mb.buffer ++ [m1, m2]⟩ : Mailbox)) ∈
      ((b.Broadcast m1).1.Broadcast m2).1.subscribers := by
  refine ⟨rfl, rfl, rfl, ?_, ?_⟩
  · intro mb' m hle
    by_cases h : mb'.buffer.length < mb'.capacity
    · simp only [Mailbox.trySend, if_pos h, List.length_append, List.length_singleton]
      omega
    · simp only [Mailbox.trySend, if_neg h]
      exact hle
  · have hcap1 : mb.buffer.length < mb.capacity :=
      Nat.lt_of_le_of_lt (Nat.le_succ _) hroom
    have h1 := (broadcastLoop_mem_spec m1 b.subscribers id mb hnd hmem).1 hcap1
    have hnd1 : (b.Broadcast m1).1.tokens.Nodup := by
      have := broadcastLoop_map_fst b.subscribers m1
      rw [Broadcaster.tokens]
      rw [show (b.Broadcast m1).1.subscribers = (broadcastLoop b.subscribers m1).1 from rfl, this]
      exact hnd
    have hcap2 : (mb.buffer ++ [m1]).length + 0 < mb.capacity := by
      simpa using hroom
    have h2 := (broadcastLoop_mem_spec m2 (b.Broadcast m1).1.subscribers id
        ⟨mb.capacity, mb.buffer ++ [m1]⟩ hnd1 h1.1).1 (by simpa using hroom)
    have : mb.buffer ++ [m1] ++ [m2] = mb.buffer ++ [m1, m2] := by simp
    rw [show ((b.Broadcast m1).1.Broadcast m2).1.subscribers =
        (broadcastLoop (b.Broadcast m1).1.subscribers m2).1 from rfl]
    exact this ▸ h2.1

/-- Witness for C2: a concrete subscriber with a capacity-2 empty mailbox
receives two consecutive broadcasts in order. -/
theorem mailbox_capacity_and_fifo_witness :
    wReg.tokens.Nodup ∧ ("s", (⟨2, []⟩ : Mailbox)) ∈ wReg.subscribers ∧ 0 + 1 < 2 ∧
    ("s", (⟨2, [wSample, wSample]⟩ : Mailbox)) ∈
      ((wReg.Broadcast wSample).1.Broadcast wSample).1.subscribers :=
  ⟨by decide, by decide, by decide,
    (mailbox_capacity_and_fifo wReg "s" ⟨2, []⟩ wSample wSample
      (by decide) (by decide) (by decide)).2.2.2.2⟩

/-- Claim C3: whenever `SubscribeMetrics` terminates — via any exit path
of its streaming loop — the deferred cleanup has run exactly one
`Unregister` call for the loop's token, and the token is absent from the
final registry. -/
theorem subscription_loop_leak_free (b : Broadcaster) (id : String)
    (events : List SubEvent) (out : SubOutcome)
    (h : subscribeMetrics b id events = some out) :
    id ∉ out.broadcaster.tokens ∧ out.unregisterCalls = 1 := by
  cases hs : streamingLoop events with
  | none => simp [subscribeMetrics, hs] at h
  | some r =>
    obtain ⟨res, sent⟩ := r
    cases res with
    | none =>
      simp [subscribeMetrics, hs] at h
      rw [← h]
      exact ⟨unregister_tokens_not_mem _ id, rfl⟩
    | some e =>
      simp [subscribeMetrics, hs] at h
      rw [← h]
      exact ⟨unregister_tokens_not_mem _ id, rfl⟩

/-- Witness for C3: a concrete subscription that is cancelled at once;
its token is gone from the registry and cleanup ran once. -/
theorem subscription_loop_leak_free_witness :
    subscribeMetrics NewBroadcaster "s" [SubEvent.cancel] =
      some ⟨NewBroadcaster, none, [], 1⟩ ∧
    ("s" ∉ (SubOutcome.mk NewBroadcaster none [] 1).broadcaster.tokens ∧
      (SubOutcome.mk NewBroadcaster none [] 1).unregisterCalls = 1) :=
  ⟨by decide,
    subscription_loop_leak_free NewBroadcaster "s" [SubEvent.cancel] _ (by decide)⟩

/-- Claim C4: on a stream of n samples followed by clean end-of-stream
(and a successfully transmitted acknowledgment), `sendMetrics` passes
exactly those n samples to `Broadcast`, once each in receipt order, sends
exactly one acknowledgment and returns success; on a stream whose read
fails, it returns that failure and sends no acknowledgment. -/
theorem sendMetrics_per_sample_single_ack (b : Broadcaster) (msgs : List Metrics) :
    ((sendMetrics b msgs StreamEnd.eof none).broadcastCalls = msgs ∧
      (sendMetrics b msgs StreamEnd.eof none).result = none ∧
      (sendMetrics b msgs StreamEnd.eof none).acksSent = 1) ∧
    (∀ (e : TransportError) (ack : Option TransportError),
      (sendMetrics b msgs (StreamEnd.failure e) ack).broadcastCalls = msgs ∧
      (sendMetrics b msgs (StreamEnd.failure e) ack).result = some e ∧
      (sendMetrics b msgs (StreamEnd.failure e) ack).acksSent = 0) := by
  induction msgs generalizing b with
  | nil => simp [sendMetrics]
  | cons m rest ih => simp [sendMetrics, ih]

/-- Claim C10: on clean end-of-stream, `sendMetrics` returns exactly the
transport outcome of transmitting the acknowledgment: when that
transmission fails, the error is returned to the caller instead of
success. -/
theorem send_and_close_result_propagated (b : Broadcaster) (msgs : List Metrics)
    (e : TransportError) :
    (sendMetrics b msgs StreamEnd.eof (some e)).result = some e := by
  induction msgs generalizing b with
  | nil => simp [sendMetrics]
  | cons m rest ih => simp [sendMetrics, ih]

/-! ## Registration batches and the streaming-loop trace lemma -/

/-- A sequence of `Register` calls, one per entry (as issued by N
subscriber connections). -/
def registerAll (b : Broadcaster) (entries : List (String × Mailbox)) : Broadcaster :=
  entries.foldl (fun acc p => acc.Register p.1 p.2) b

lemma register_fresh (b : Broadcaster) (id : String) (ch : Mailbox)
    (h : id ∉ b.tokens) :
    (b.Register id ch).subscribers = b.subscribers ++ [(id, ch)] := by
  simp [Broadcaster.Register, h]

lemma registerAll_fresh (entries : List (String × Mailbox)) :
    ∀ (b : Broadcaster), (entries.map Prod.fst).Nodup →
      (∀ p ∈ entries, p.1 ∉ b.tokens) →
      (registerAll b entries).subscribers = b.subscribers ++ entries := by
  induction entries with
  | nil => intro b _ _; simp [registerAll]
  | cons p rest ih =>
    intro b hnd hfresh
    obtain ⟨id, ch⟩ := p
    rw [List.map_cons, List.nodup_cons] at hnd
    have hb : id ∉ b.tokens := hfresh (id, ch) (by simp)
    have hreg := register_fresh b id ch hb
    have htok : (b.Register id ch).tokens = b.tokens ++ [id] := by
      simp [Broadcaster.tokens, hreg]
    have hfresh' : ∀ q ∈ rest, q.1 ∉ (b.Register id ch).tokens := by
      intro q hq
      rw [htok]
      intro hmem
      rcases List.mem_append.mp hmem with hmem | hmem
      · exact hfresh q (List.mem_cons.mpr (Or.inr hq)) hmem
      · have : q.1 = id := by simpa using hmem
        exact hnd.1 (this ▸ List.mem_map.mpr ⟨q, hq, rfl⟩)
    have hstep : registerAll b ((id, ch) :: rest) = registerAll (b.Register id ch) rest := by
      simp [registerAll]
    rw [hstep, ih _ hnd.2 hfresh', hreg]
    simp

/-- Claim C7: for any sequence of `Register` calls whose tokens are
pairwise distinct and fresh for the starting registry (the precondition
the uuid generation scheme guarantees), every registration inserts a new
entry: all N new entries are present afterwards, the registry grows by
exactly N, and every pre-existing entry survives unchanged (nothing is
silently overwritten). -/
theorem registration_uniqueness (b : Broadcaster) (entries : List (String × Mailbox))
    (hnd : (entries.map Prod.fst).Nodup)
    (hfresh : ∀ p ∈ entries, p.1 ∉ b.tokens) :
    (∀ p ∈ entries, p ∈ (registerAll b entries).subscribers) ∧
    (registerAll b entries).subscribers.length =
      b.subscribers.length + entries.length ∧
    (∀ p ∈ b.subscribers, p ∈ (registerAll b entries).subscribers) := by
  have h := registerAll_fresh entries b hnd hfresh
  refine ⟨?_, ?_, ?_⟩
  · intro p hp
    rw [h]
    exact List.mem_append.mpr (Or.inr hp)
  · rw [h, List.length_append]
  · intro p hp
    rw [h]
    exact List.mem_append.mpr (Or.inl hp)

/-- Witness for C7: two fresh distinct registrations on the empty
registry yield exactly two entries. -/
theorem registration_uniqueness_witness :
    (wEntries.map Prod.fst).Nodup ∧
    (registerAll NewBroadcaster wEntries).subscribers.length =
      NewBroadcaster.subscribers.length + wEntries.length :=
  ⟨by decide,
    (registration_uniqueness NewBroadcaster wEntries (by decide) (by decide)).2.1⟩

lemma streamingLoop_append_ok (pre : List SubEvent)
    (hpre : ∀ ev ∈ pre, ev.isOkSample = true) (tail : List SubEvent)
    (res : Option TransportError) (sent : List Metrics)
    (h : streamingLoop tail = some (res, sent)) :
    streamingLoop (pre ++ tail) = some (res, sampleMsgs pre ++ sent) := by
  induction pre with
  | nil => simpa using h
  | cons ev rest ih =>
    have hev := hpre ev (by simp)
    have hrest : ∀ e ∈ rest, e.isOkSample = true := fun e he =>
      hpre e (List.mem_cons.mpr (Or.inr he))
    cases ev with
    | cancel => simp [SubEvent.isOkSample] at hev
    | sample m r =>
      cases r with
      | some e => simp [SubEvent.isOkSample] at hev
      | none => simp [streamingLoop, sampleMsgs, ih hrest]

/-- Claim C8: the streaming loop of `SubscribeMetrics` terminates with
exactly the outcome its exit event dictates — after any run of
successfully sent samples, a sample whose send fails makes the call
unregister its token and return that failure, while an observed
cancellation makes it unregister its token and return success. -/
theorem subscription_exit_outcomes (b : Broadcaster) (id : String)
    (pre rest : List SubEvent) (m : Metrics) (e : TransportError)
    (hpre : ∀ ev ∈ pre, ev.isOkSample = true) :
    (∃ out : SubOutcome,
      subscribeMetrics b id (pre ++ SubEvent.sample m (some e) :: rest) = some out ∧
      out.result = some e ∧ id ∉ out.broadcaster.tokens ∧ out.unregisterCalls = 1) ∧
    (∃ out : SubOutcome,
      subscribeMetrics b id (pre ++ SubEvent.cancel :: rest) = some out ∧
      out.result = none ∧ id ∉ out.broadcaster.tokens ∧ out.unregisterCalls = 1) := by
  have h1 : streamingLoop (SubEvent.sample m (some e) :: rest) = some (some e, []) := rfl
  have h2 : streamingLoop (SubEvent.cancel :: rest) = some (none, []) := rfl
  have H1 := streamingLoop_append_ok pre hpre _ _ _ h1
  have H2 := streamingLoop_append_ok pre hpre _ _ _ h2
  constructor
  · refine ⟨⟨(b.Register id (Mailbox.new mailboxCapacity)).Unregister id,
      some e, sampleMsgs pre ++ [], 1⟩, ?_, rfl, unregister_tokens_not_mem _ id, rfl⟩
    simp [subscribeMetrics, H1]
  · refine ⟨⟨(b.Register id (Mailbox.new mailboxCapacity)).Unregister id,
      none, sampleMsgs pre ++ [], 1⟩, ?_, rfl, unregister_tokens_not_mem _ id, rfl⟩
    simp [subscribeMetrics, H2]

/-- Witness for C8: on the empty prefix, a failing send ends the loop
with that error and a cancellation ends it with success, both leaving the
token unregistered. -/
theorem subscription_exit_outcomes_witness :
    (∀ ev ∈ ([] : List SubEvent), ev.isOkSample = true) ∧
    ((∃ out : SubOutcome,
      subscribeMetrics NewBroadcaster "s"
          ([] ++ SubEvent.sample wSample (some ⟨7⟩) :: []) = some out ∧
      out.result = some ⟨7⟩ ∧ "s" ∉ out.broadcaster.tokens ∧ out.unregisterCalls = 1) ∧
    (∃ out : SubOutcome,
      subscribeMetrics NewBroadcaster "s" ([] ++ SubEvent.cancel :: []) = some out ∧
      out.result = none ∧ "s" ∉ out.broadcaster.tokens ∧ out.unregisterCalls = 1)) :=
  ⟨by simp,
    subscription_exit_outcomes NewBroadcaster "s" [] [] wSample ⟨7⟩ (by simp)⟩

end Relay
